import Mathlib

/-!
# OllamaLink — verification of the translation and routing engine

Shallow embedding of the core request/response pipeline of the OllamaLink
gateway (`src/core/`), together with proofs and refutations of the frozen
specification claims.

Conventions used throughout:

* Python dicts that carry chat messages are modelled by the structure `Msg`;
  keys other than `"role"` and `"content"` are kept abstractly in the field
  `rest` (they are never inspected by the embedded code, only copied).
* `json.loads` of backend stream lines is modelled by an abstract parse
  function `String → Option BChunk` passed as a parameter; `none` models a
  `json.JSONDecodeError`.
* Wall-clock timestamps (Python `time.time()` floats) are modelled as
  integers; only comparisons and subtraction of timestamps occur in the
  embedded code.
* Backend I/O is modelled by oracles: a list or indexed family of attempt
  outcomes replaces the actual HTTP calls.
-/

namespace OllamaLink

/-! ## Data model: messages (src/core/util.py, handlers) -/

/-- One element of a structured (list-valued) message content, as inspected by
`sanitize_messages` and `estimate_message_tokens`: either a dict (with an
optional `"type"` field, an optional `"text"` field, and a flag recording
whether an `"image_url"` key is present), a plain string, or any other
value. -/
inductive CItem where
  | obj (ty : Option String) (text : Option String) (hasImageUrl : Bool)
  | strI (s : String)
  | otherI
deriving DecidableEq, Repr

/-- A message `"content"` value: a string, a list of parts, or some other
scalar (modelled only by its Python truthiness). -/
inductive Content where
  | str (s : String)
  | arr (items : List CItem)
  | scalar (truthy : Bool)
deriving DecidableEq, Repr

/-- A chat message dict. `content = none` models a dict without a
`"content"` key; `rest` holds all keys other than `"role"`/`"content"`
abstractly (the embedded code never reads them, only copies them). -/
structure Msg where
  role : String
  content : Option Content
  rest : List (String × String)
deriving DecidableEq, Repr

/-- `util.estimate_message_tokens`: crude token estimate of one message.
String content contributes `len(content)//4 + 5`; list content sums
`len(text)/4` over text parts and raw strings plus `50` per `image_url`
part, then adds 5 (the float arithmetic in the source is exact for
quarters, so integer division matches `int(total)`); other truthy content
counts 5; falsy or missing content counts 0. -/
def estimate_message_tokens (m : Msg) : Nat :=
  match m.content with
  | none => 0
  | some (.str s) => if s = "" then 0 else s.length / 4 + 5
  | some (.arr items) =>
      if items = [] then 0
      else
        let textLen := (items.map (fun it =>
          match it with
          | .obj ty text _ => if ty = some "text" ∧ text.isSome then (text.getD "").length else 0
          | .strI s => s.length
          | .otherI => 0)).sum
        let imgs := (items.map (fun it =>
          match it with
          | .obj ty _ hasImg => if ty = some "image_url" ∧ hasImg then 1 else 0
          | _ => 0)).sum
        textLen / 4 + 50 * imgs + 5
  | some (.scalar t) => if t then 5 else 0

/-- `util.count_tokens_in_messages`. -/
def count_tokens_in_messages (msgs : List Msg) : Nat :=
  (msgs.map estimate_message_tokens).sum

/-! ## BaseRequestHandler.sanitize_messages (src/core/handlers/base_request_handler.py 91-106) -/

/-- The text parts collected from a list-valued content by
`sanitize_messages`: dict items with `type == "text"` and a `"text"` key
contribute their text, raw strings contribute themselves, everything else
(e.g. images) is dropped. -/
def textParts (items : List CItem) : List String :=
  items.filterMap (fun it =>
    match it with
    | .obj ty text _ => if ty = some "text" ∧ text.isSome then text else none
    | .strI s => some s
    | .otherI => none)

/-- `BaseRequestHandler.sanitize_messages`: each message is copied; a
list-valued content is replaced by the space-join of its text parts, any
other content is left untouched. -/
def sanitize_messages (msgs : List Msg) : List Msg :=
  msgs.map (fun m =>
    match m.content with
    | some (.arr items) => { m with content := some (.str (String.intercalate " " (textParts items))) }
    | _ => m)

/-! ## BaseClient model-name resolution (src/core/clients/base_client.py, ollama_client.py) -/

/-- Helper for `_normalize_model_name`: remove the first matching suffix
from the candidate list (the source `break`s after the first hit). -/
def stripFirstSuffix (n : String) : List String → String
  | [] => n
  | s :: rest => if n.endsWith s then n.dropRight s.length else stripFirstSuffix n rest

/-- `BaseClient._normalize_model_name`: lowercase, then strip at most one of
the known tag suffixes. -/
def normalize_model_name (name : String) : String :=
  stripFirstSuffix name.toLower [":latest", ":v1", ":v2", ":instruct", ":chat"]

/-- `OllamaClient.get_model_name` (src/core/clients/ollama_client.py 98-133).
The catalog is the list of available model ids; the alias table is an
association list (Python dict). The result is `Option String` because the
final `model_mappings.get("default")` can be `None` in the source. -/
def get_model_name (availableModels : List String) (mappings : List (String × String))
    (requested : String) : Option String :=
  if availableModels = [] then
    some (if mappings ≠ [] then (mappings.lookup "default").getD "llama3" else "llama3")
  else
    let fallthrough : Option String :=
      if availableModels.any (fun m => m = requested) then some requested
      else
        let nr := normalize_model_name requested
        match availableModels.find? (fun m =>
            normalize_model_name m = nr ∨ (normalize_model_name m).startsWith nr) with
        | some m => some m
        | none =>
            if mappings ≠ [] then mappings.lookup "default"
            else some (availableModels.headD "llama3")
    match mappings.lookup requested with
    | some mapped =>
        if availableModels.any (fun m => m = mapped) then some mapped
        else
          match availableModels.find? (fun m => normalize_model_name m = normalize_model_name mapped) with
          | some m => some m
          | none => fallthrough
    | none => fallthrough

/-! ## Claim C7: model resolution precedence -/

/-- C7: model resolution follows alias-exact-match-first precedence: if the
alias table maps `"gpt-4"` to `"local-model-a"` and the catalog contains
`"local-model-a"`, resolution returns exactly `"local-model-a"` (never a
tag-suffixed fuzzy match such as `"local-model-a:latest"`). -/
theorem C7_model_resolution (catalog : List String) (mappings : List (String × String))
    (hmap : mappings.lookup "gpt-4" = some "local-model-a")
    (hcat : "local-model-a" ∈ catalog) :
    get_model_name catalog mappings "gpt-4" = some "local-model-a" := by
  have hne : catalog ≠ [] := by
    intro h; subst h; simp at hcat
  have hany : catalog.any (fun m => m = "local-model-a") = true := by
    simp only [List.any_eq_true, decide_eq_true_eq]
    exact ⟨_, hcat, rfl⟩
  simp [get_model_name, hne, hmap, hany]

/-- Witness for C7 at the claim's concrete catalog (containing both
`local-model-a` and `local-model-a:latest`) and alias table. -/
theorem C7_model_resolution_witness :
    ([("gpt-4", "local-model-a")].lookup "gpt-4" = some "local-model-a") ∧
    ("local-model-a" ∈ ["local-model-a", "local-model-a:latest"]) ∧
    get_model_name ["local-model-a", "local-model-a:latest"] [("gpt-4", "local-model-a")] "gpt-4"
      = some "local-model-a" :=
  ⟨by decide, by decide,
   C7_model_resolution ["local-model-a", "local-model-a:latest"] [("gpt-4", "local-model-a")]
     (by decide) (by decide)⟩

/-! ## Claim C10: sanitize_messages frame effect -/

/-- C10: `sanitize_messages` preserves length and order; each output message
keeps its role and all non-content fields unchanged; string/scalar/missing
content passes through unmodified, and list content is replaced by the
space-joined text of its text parts (non-text parts dropped). -/
theorem C10_sanitize (msgs : List Msg) :
    (sanitize_messages msgs).length = msgs.length ∧
    ∀ (i : Nat) (o s : Msg), msgs[i]? = some o → (sanitize_messages msgs)[i]? = some s →
      s.role = o.role ∧ s.rest = o.rest ∧
      (match o.content with
       | some (.arr items) => s.content = some (.str (String.intercalate " " (textParts items)))
       | c => s.content = c) := by
  constructor
  · simp [sanitize_messages]
  · intro i o s ho hs
    rw [sanitize_messages, List.getElem?_map, ho] at hs
    simp only [Option.map_some', Option.some.injEq] at hs
    subst hs
    rcases o with ⟨role, content, rest⟩
    rcases content with _ | c
    · exact ⟨rfl, rfl, rfl⟩
    · cases c <;> exact ⟨rfl, rfl, rfl⟩

/-- Witness for C10 on a concrete message with mixed structured content
(a text part, a non-text part, a raw string). -/
theorem C10_sanitize_witness :
    ([⟨"user", some (.arr [.obj (some "text") (some "hello") false, .otherI, .strI "world"]),
       [("name", "x")]⟩] : List Msg)[0]? =
      some ⟨"user", some (.arr [.obj (some "text") (some "hello") false, .otherI, .strI "world"]),
       [("name", "x")]⟩ ∧
    (sanitize_messages [⟨"user",
        some (.arr [.obj (some "text") (some "hello") false, .otherI, .strI "world"]),
        [("name", "x")]⟩])[0]? =
      some ⟨"user", some (.str "hello world"), [("name", "x")]⟩ ∧
    ("user" = "user" ∧ ([("name", "x")] : List (String × String)) = [("name", "x")] ∧
      (some (Content.str "hello world") : Option Content) =
        some (.str (String.intercalate " "
          (textParts [.obj (some "text") (some "hello") false, .otherI, .strI "world"])))) :=
  ⟨rfl, rfl,
   (C10_sanitize [⟨"user", some (.arr [.obj (some "text") (some "hello") false, .otherI, .strI "world"]),
      [("name", "x")]⟩]).2 0
     ⟨"user", some (.arr [.obj (some "text") (some "hello") false, .otherI, .strI "world"]), [("name", "x")]⟩
     ⟨"user", some (.str "hello world"), [("name", "x")]⟩ rfl rfl⟩

/-! ## OllamaRequestHandler._chunk_messages (src/core/request.py 134-194)

The embedding is instrumented: every message placed into a chunk is tagged
with its provenance — `fresh` for a message taken from the input in order,
`carried` for an overlap message copied forward from the previous chunk,
`sysins` for a re-insertion of the system message at the head of a chunk.
Erasing the tags gives exactly the source function's output. -/

/-- Provenance of a message occurrence inside a chunk. -/
inductive Tag where
  | fresh
  | carried
  | sysins
deriving DecidableEq, Repr

/-- A message together with its provenance tag. -/
abbrev TMsg := Msg × Tag

/-- The system message retained by `_chunk_messages`: the source loop
overwrites `system_message` on every system-role message, so the last one
wins. -/
def sysOf (msgs : List Msg) : Option Msg :=
  msgs.foldl (fun acc m => if m.role = "system" then some m else acc) none

/-- The non-system messages, in order (`regular_messages` in the source). -/
def regularOf (msgs : List Msg) : List Msg :=
  msgs.filter (fun m => m.role != "system")

/-- Python `system_message in current_chunk` (`None in l` is `False`). -/
def memSys (sys : Option Msg) (cur : List TMsg) : Bool :=
  match sys with
  | none => false
  | some s => cur.any (fun p => p.1 == s)

/-- The chunk-building loop of `_chunk_messages` (source lines 161-187),
processing `rest` starting at index `i` of `regular`, with accumulated
closed chunks, the open chunk `cur` and its token count. -/
def chunkLoop (maxT K : Nat) (sys : Option Msg) (sysTok : Nat) (regular : List Msg) :
    List Msg → Nat → List (List TMsg) → List TMsg → Nat → List (List TMsg)
  | [], _, chunks, cur, _ =>
      if cur ≠ [] ∧ (cur.length > 1 ∨ memSys sys cur = false) then chunks ++ [cur] else chunks
  | msg :: rest, i, chunks, cur, curTok =>
      let mt := estimate_message_tokens msg
      if curTok + mt > maxT ∧ cur ≠ [] then
        let curC := if cur = [] ∨ (cur.length = 1 ∧ memSys sys cur = true)
          then cur ++ [(msg, Tag.fresh)] else cur
        let start := i - K
        let ovSrc := (regular.drop start).take (i - start)
        let ov := ovSrc.map (fun m => (m, Tag.carried))
        let base : List TMsg := match sys with | some s => [(s, Tag.sysins)] | none => []
        let newTok := sysTok + (ovSrc.map estimate_message_tokens).sum
        chunkLoop maxT K sys sysTok regular rest (i + 1) (chunks ++ [curC])
          (base ++ ov ++ [(msg, Tag.fresh)]) (newTok + mt)
      else
        chunkLoop maxT K sys sysTok regular rest (i + 1) chunks
          (cur ++ [(msg, Tag.fresh)]) (curTok + mt)

/-- `OllamaRequestHandler._chunk_messages`, tagged: split messages into
token-bounded chunks, re-inserting the system message at the head of every
chunk and carrying the previous `K` regular messages forward as overlap.
`maxT` is `max_tokens_per_chunk` (source default 2000) and `K` is
`chunk_overlap` (source default 1). -/
def chunk_messages_tagged (maxT K : Nat) (msgs : List Msg) : List (List TMsg) :=
  let sys := sysOf msgs
  let regular := regularOf msgs
  if count_tokens_in_messages msgs ≤ maxT then [msgs.map (fun m => (m, Tag.fresh))]
  else
    let sysTok := match sys with | some s => estimate_message_tokens s | none => 0
    let init : List TMsg := match sys with | some s => [(s, Tag.sysins)] | none => []
    chunkLoop maxT K sys sysTok regular regular 0 [] init sysTok

/-- `_chunk_messages` as in the source, with provenance tags erased. -/
def chunk_messages (maxT K : Nat) (msgs : List Msg) : List (List Msg) :=
  (chunk_messages_tagged maxT K msgs).map (List.map Prod.fst)

/-- The slice of a chunk that is neither injected carried-context nor a
re-inserted system message. -/
def freshSlice (chunk : List TMsg) : List Msg :=
  chunk.filterMap (fun p => if p.2 = Tag.fresh then some p.1 else none)

/-- Concatenation of the chunks' fresh slices: the claimed reconstruction of
the original message list. -/
def recon (chunks : List (List TMsg)) : List Msg :=
  (chunks.map freshSlice).flatten

/-! ## Claim C5: chunk reconstruction -/

theorem freshSlice_append (a b : List TMsg) :
    freshSlice (a ++ b) = freshSlice a ++ freshSlice b := by
  simp [freshSlice]

theorem freshSlice_map_carried (l : List Msg) :
    freshSlice (l.map (fun m => (m, Tag.carried))) = [] := by
  induction l with
  | nil => rfl
  | cons x xs ih => simp [freshSlice]

theorem freshSlice_allFresh (l : List Msg) :
    freshSlice (l.map (fun m => (m, Tag.fresh))) = l := by
  induction l with
  | nil => rfl
  | cons x xs ih => simpa [freshSlice] using ih

theorem recon_append_single (a : List (List TMsg)) (c : List TMsg) :
    recon (a ++ [c]) = recon a ++ freshSlice c := by
  simp [recon]

/-- Fresh slices of the chunk loop, for inputs without a system message:
whatever goes into the open chunk or the overlap, the fresh messages of the
produced chunks are the already-collected ones followed by the remaining
input, in order. -/
theorem chunkLoop_recon (maxT K : Nat) (regular : List Msg) (rest : List Msg) :
    ∀ (i : Nat) (chunks : List (List TMsg)) (cur : List TMsg) (curTok : Nat),
      recon (chunkLoop maxT K none 0 regular rest i chunks cur curTok)
        = recon chunks ++ freshSlice cur ++ rest := by
  induction rest with
  | nil =>
      intro i chunks cur curTok
      simp only [chunkLoop]
      by_cases hcur : cur = []
      · subst hcur
        have hneg : ¬(([] : List TMsg) ≠ [] ∧
            (([] : List TMsg).length > 1 ∨ memSys none [] = false)) := by
          rintro ⟨h, _⟩; exact h rfl
        rw [if_neg hneg]
        simp [freshSlice]
      · rw [if_pos ⟨hcur, Or.inr rfl⟩, recon_append_single]
        simp
  | cons msg rest ih =>
      intro i chunks cur curTok
      simp only [chunkLoop]
      split
      next hclose =>
        have hguard : ¬(cur = [] ∨ (cur.length = 1 ∧ memSys none cur = true)) := by
          rintro (h | ⟨_, h⟩)
          · exact hclose.2 h
          · simp [memSys] at h
        rw [if_neg hguard, ih, recon_append_single, freshSlice_append, freshSlice_append,
          freshSlice_map_carried]
        simp [freshSlice]
      next hnoclose =>
        rw [ih, freshSlice_append]
        simp [freshSlice]

theorem sysOf_eq_none {msgs : List Msg} (h : ∀ m ∈ msgs, m.role ≠ "system") :
    sysOf msgs = none := by
  have general : ∀ (l : List Msg), (∀ m ∈ l, m.role ≠ "system") →
      l.foldl (fun acc m => if m.role = "system" then some m else acc) none = none := by
    intro l
    induction l with
    | nil => intro _; rfl
    | cons x xs ih =>
        intro hx
        have : (if x.role = "system" then some x else none) = none := by
          rw [if_neg (hx x (by simp))]
        simp only [List.foldl_cons, this]
        exact ih (fun m hm => hx m (by simp [hm]))
  exact general msgs h

theorem regularOf_eq_self {msgs : List Msg} (h : ∀ m ∈ msgs, m.role ≠ "system") :
    regularOf msgs = msgs := by
  rw [regularOf, List.filter_eq_self]
  intro m hm
  simpa using h m hm

/-- C5 counterexample: for `max_tokens_per_chunk = 10`, `chunk_overlap = 1`
and a conversation whose system message (10 estimated tokens) plus first
user message (6 estimated tokens) overflow a chunk, `_chunk_messages`
appends the user message both to the chunk it closes and to the next chunk,
so the reconstruction duplicates it — refuting the claim that concatenating
the chunk slices (ignoring carried context and system re-insertions)
reproduces the original list. -/
theorem C5_counterexample :
    recon (chunk_messages_tagged 10 1
        [⟨"system", some (.str "12345678901234567890"), []⟩, ⟨"user", some (.str "abcd"), []⟩])
      = [⟨"user", some (.str "abcd"), []⟩, ⟨"user", some (.str "abcd"), []⟩] ∧
    recon (chunk_messages_tagged 10 1
        [⟨"system", some (.str "12345678901234567890"), []⟩, ⟨"user", some (.str "abcd"), []⟩])
      ≠ [⟨"system", some (.str "12345678901234567890"), []⟩, ⟨"user", some (.str "abcd"), []⟩] := by
  constructor <;> decide

/-- C5 (amended): for message lists without a system message — so that no
system re-insertion or overflow-at-chunk-head duplication can occur —
concatenating the chunks' fresh slices (ignoring injected carried-context)
reproduces the original ordered message list, for every token bound and
overlap width. -/
theorem C5_reconstruction_amended (maxT K : Nat) (msgs : List Msg)
    (h : ∀ m ∈ msgs, m.role ≠ "system") :
    recon (chunk_messages_tagged maxT K msgs) = msgs := by
  unfold chunk_messages_tagged
  rw [sysOf_eq_none h, regularOf_eq_self h]
  by_cases htot : count_tokens_in_messages msgs ≤ maxT
  · rw [if_pos htot]
    simp [recon, freshSlice_allFresh]
  · rw [if_neg htot]
    rw [chunkLoop_recon]
    simp [recon, freshSlice]

/-- Witness for the amended C5 at a concrete two-chunk split. -/
theorem C5_reconstruction_witness :
    (∀ m ∈ ([⟨"user", some (.str "abcd"), []⟩, ⟨"user", some (.str "efgh"), []⟩] : List Msg),
      m.role ≠ "system") ∧
    recon (chunk_messages_tagged 10 1
        [⟨"user", some (.str "abcd"), []⟩, ⟨"user", some (.str "efgh"), []⟩])
      = [⟨"user", some (.str "abcd"), []⟩, ⟨"user", some (.str "efgh"), []⟩] :=
  ⟨by decide, C5_reconstruction_amended 10 1 _ (by decide)⟩

/-! ## Chunked request processing
(src/core/request.py `_process_chunked_request`,
src/core/handlers/base_request_handler.py `process_chunked_request`) -/

/-- Parsed Ollama chat response body as used by the chunked path: the
assistant message content (`none` models a dict without
`message`/`content`), and the two usage counters (absent keys read as 0 via
`.get(..., 0)`). -/
structure ORes where
  content : Option String
  promptEval : Nat
  evalCount : Nat
deriving DecidableEq, Repr

/-- Outcome of one `_make_ollama_request` call as seen by the chunk loop:
a parsed dict without an `"error"` key, a dict with an `"error"` key, or a
raw `httpx.Response` (the streaming case), whose `parse_ollama_response`
result is `r`. -/
inductive BackendResp where
  | jsonData (r : ORes)
  | jsonErr (msg : String)
  | httpResp (status : Nat) (r : ORes)
deriving DecidableEq, Repr

/-- Result of the chunked processing loop. -/
inductive ChunkedResult where
  | finalData (r : ORes)
  | finalStream
  | raisedErr (msg : String)
deriving DecidableEq, Repr

/-- One dispatched sub-request: the messages placed in the chunk request and
the value of its `"stream"` key (`none` = key absent, because it was popped
and not re-set). -/
structure SubReq where
  msgs : List Msg
  streamField : Option Bool
deriving DecidableEq, Repr

/-- The carried-forward assistant message built from a chunk's reply. -/
def assistantMsg (c : String) : Msg := ⟨"assistant", some (.str c), []⟩

/-- `prefer_streaming` is set to `True` in both handlers' constructors. -/
def preferStreaming : Bool := true

/-- The `stream` value `_make_ollama_request` acts on and posts:
`request_data.get("stream", self.prefer_streaming)` (when truthy the key is
then set to `True` before posting). -/
def ollamaDispatchedStream (streamField : Option Bool) : Bool :=
  streamField.getD preferStreaming

/-- The `stream` value `BaseRequestHandler.make_request` acts on:
`prepared_data.get("stream", self.prefer_streaming)` (after
`prepare_request_data`, which itself defaults an absent key to
`prefer_streaming`). -/
def baseDispatchedStream (streamField : Option Bool) : Bool :=
  streamField.getD preferStreaming

/-- The chunk-dispatch loop of `OllamaRequestHandler._process_chunked_request`
(src/core/request.py 234-299). Each list element pairs a chunk with the
outcome of its backend call (the I/O oracle); the result is returned with
the trace of dispatched sub-requests. `origStream` is the `stream` value
popped from the original request (`False` when the key is absent), `ctx`
the carried assistant context, `cp`/`ce` the accumulated usage counters,
`i` the chunk index. A failed chunk is skipped (`continue`) when carried
context from an earlier chunk exists, otherwise the error is raised. -/
def processChunksO (origStream : Bool) :
    List (List Msg × BackendResp) → List Msg → Nat → Nat → Nat → ChunkedResult × List SubReq
  | [], _, _, _, _ => (.raisedErr "Error in chunked processing flow", [])
  | (chunk, resp) :: rest, ctx, cp, ce, i =>
    let msgs := if ctx ≠ [] then chunk ++ ctx else chunk
    let sf : Option Bool := if origStream ∧ rest ≠ [] then some false else none
    let sub : SubReq := ⟨msgs, sf⟩
    match resp with
    | .jsonErr m =>
        if ctx ≠ [] ∧ i > 0 then
          let rec' := processChunksO origStream rest ctx cp ce (i + 1)
          (rec'.1, sub :: rec'.2)
        else (.raisedErr ("Chunk processing error: " ++ m), [sub])
    | .jsonData r =>
        if rest = [] then
          (.finalData { r with promptEval := cp + r.promptEval, evalCount := ce + r.evalCount },
           [sub])
        else
          let ctx' := match r.content with | some c => [assistantMsg c] | none => ctx
          let rec' := processChunksO origStream rest ctx' (cp + r.promptEval)
            (ce + r.evalCount) (i + 1)
          (rec'.1, sub :: rec'.2)
    | .httpResp status r =>
        if status ≠ 200 then
          if ctx ≠ [] ∧ i > 0 then
            let rec' := processChunksO origStream rest ctx cp ce (i + 1)
            (rec'.1, sub :: rec'.2)
          else (.raisedErr "Chunk processing error", [sub])
        else if rest = [] then
          if origStream then (.finalStream, [sub])
          else
            (.finalData { r with promptEval := cp + r.promptEval, evalCount := ce + r.evalCount },
             [sub])
        else
          let ctx' := match r.content with | some c => [assistantMsg c] | none => ctx
          let rec' := processChunksO origStream rest ctx' (cp + r.promptEval)
            (ce + r.evalCount) (i + 1)
          (rec'.1, sub :: rec'.2)

/-- Fields of the OpenAI-shaped non-streaming reply built by
`OllamaResponseHandler.format_openai_response` (src/core/response.py
40-77). -/
structure OpenAIResponse where
  id : String
  created : Nat
  model : String
  content : String
  finishReason : String
  promptTokens : Nat
  completionTokens : Nat
  totalTokens : Nat
deriving DecidableEq, Repr

/-- `OllamaResponseHandler.format_openai_response`; the random chat id and
the `time.time()` stamp are inputs. -/
def format_openai_response (rid : String) (created : Nat) (requestedModel : String)
    (resp : ORes) : OpenAIResponse :=
  { id := rid
    created := created
    model := requestedModel
    content := resp.content.getD ""
    finishReason := "stop"
    promptTokens := resp.promptEval
    completionTokens := resp.evalCount
    totalTokens := resp.promptEval + resp.evalCount }

/-- The greedy packing loop of `BaseRequestHandler.chunk_messages`
(164-186): no system handling, no overlap. -/
def chunkBaseLoop (maxT : Nat) : List Msg → List Msg → Nat → List (List Msg)
  | [], cur, _ => if cur ≠ [] then [cur] else []
  | m :: rest, cur, curTok =>
      let mt := estimate_message_tokens m
      if curTok + mt > maxT ∧ cur ≠ [] then
        cur :: chunkBaseLoop maxT rest [m] mt
      else
        chunkBaseLoop maxT rest (cur ++ [m]) (curTok + mt)

/-- `BaseRequestHandler.chunk_messages`. -/
def chunk_messages_base (maxT : Nat) (msgs : List Msg) : List (List Msg) :=
  chunkBaseLoop maxT msgs [] 0

/-- Outcome of one `make_request` call in the base chunked path. -/
inductive BRespB where
  | errD (msg : String) (code : Nat)
  | resp
deriving DecidableEq, Repr

/-- Result of `BaseRequestHandler.process_chunked_request`. -/
inductive BChunkedResult where
  | errResult (msg : String) (code : Nat)
  | finalResp
  | chunkingError
  | single
deriving DecidableEq, Repr

/-- The dispatch loop of `BaseRequestHandler.process_chunked_request`
(202-220): every chunk request gets `stream = False` ("Force non-streaming
for chunks"); `current_context` stays `[]` because the context update is
commented out in the source. -/
def processChunksBLoop (backend : Nat → BRespB) : List (List Msg) → Nat → BChunkedResult × List SubReq
  | [], _ => (.chunkingError, [])
  | ch :: rest, i =>
      let sub : SubReq := ⟨[] ++ ch, some false⟩
      match backend i with
      | .errD m c => (.errResult m c, [sub])
      | .resp =>
          if rest = [] then (.finalResp, [sub])
          else
            let rec' := processChunksBLoop backend rest (i + 1)
            (rec'.1, sub :: rec'.2)

/-- `BaseRequestHandler.process_chunked_request` (188-220): split, then
dispatch each chunk with `stream` forced to `False`; a single-chunk request
goes through `make_request` with the original request unchanged. -/
def process_chunked_request_base (maxT : Nat) (orig : List Msg) (origStream : Option Bool)
    (backend : Nat → BRespB) : BChunkedResult × List SubReq :=
  let chunks := chunk_messages_base maxT orig
  if chunks.length ≤ 1 then (.single, [⟨orig, origStream⟩])
  else processChunksBLoop backend chunks 0

/-! ## Claim C6: additive usage accumulation -/

/-- One step of `processChunksO` on a successful dict response with a
nonempty remainder: the result is that of the remainder with updated
context and counters. -/
theorem processChunksO_cons_data (origStream : Bool) (chunk : List Msg) (r : ORes)
    (L : List (List Msg × BackendResp)) (hL : L ≠ []) (ctx : List Msg) (cp ce i : Nat) :
    (processChunksO origStream ((chunk, .jsonData r) :: L) ctx cp ce i).1 =
    (processChunksO origStream L
       (match r.content with | some c => [assistantMsg c] | none => ctx)
       (cp + r.promptEval) (ce + r.evalCount) (i + 1)).1 := by
  simp only [processChunksO]
  rw [if_neg hL]

/-- When every chunk's backend call returns a parsed dict, the loop returns
the final chunk's dict with the usage counters replaced by the running sums
over all chunks. -/
theorem processChunksO_usage (origStream : Bool) (pairs : List (List Msg × ORes))
    (hne : pairs ≠ []) :
    ∀ (ctx : List Msg) (cp ce i : Nat),
      (processChunksO origStream (pairs.map (fun p => (p.1, BackendResp.jsonData p.2)))
        ctx cp ce i).1
        = .finalData ⟨(pairs.getLast hne).2.content,
            cp + (pairs.map (fun p => p.2.promptEval)).sum,
            ce + (pairs.map (fun p => p.2.evalCount)).sum⟩ := by
  induction pairs with
  | nil => cases hne rfl
  | cons p rest ih =>
    intro ctx cp ce i
    cases rest with
    | nil =>
      simp [processChunksO, List.getLast]
    | cons q rest' =>
      have hne' : q :: rest' ≠ [] := by simp
      have hmapne : (q :: rest').map (fun p => (p.1, BackendResp.jsonData p.2)) ≠ [] := by simp
      rw [List.map_cons, processChunksO_cons_data origStream p.1 p.2 _ hmapne,
        ih hne', List.getLast_cons hne']
      simp [Nat.add_assoc]

/-- C6: for a multi-chunk request whose chunk calls all succeed, the usage
statistics are accumulated additively across chunks, and the OpenAI-shaped
reply built from the final result reports the summed prompt and completion
tokens with `total_tokens` their sum. -/
theorem C6_usage_accumulation (origStream : Bool) (pairs : List (List Msg × ORes))
    (hne : pairs ≠ []) (rid : String) (created : Nat) (model : String) :
    ∃ r, (processChunksO origStream (pairs.map (fun p => (p.1, BackendResp.jsonData p.2)))
        [] 0 0 0).1 = .finalData r ∧
      (format_openai_response rid created model r).promptTokens
        = (pairs.map (fun p => p.2.promptEval)).sum ∧
      (format_openai_response rid created model r).completionTokens
        = (pairs.map (fun p => p.2.evalCount)).sum ∧
      (format_openai_response rid created model r).totalTokens
        = (pairs.map (fun p => p.2.promptEval)).sum + (pairs.map (fun p => p.2.evalCount)).sum := by
  refine ⟨_, processChunksO_usage origStream pairs hne [] 0 0 0, ?_, ?_, ?_⟩ <;>
    simp [format_openai_response]

/-- Witness for C6: three chunks, each reporting `prompt_tokens 10` and
`completion_tokens 5`, give final usage `30 / 15 / 45`. -/
theorem C6_usage_witness :
    ([([assistantMsg "q1"], (⟨some "a", 10, 5⟩ : ORes)),
      ([assistantMsg "q2"], ⟨some "b", 10, 5⟩),
      ([assistantMsg "q3"], ⟨some "c", 10, 5⟩)] : List (List Msg × ORes)) ≠ [] ∧
    ∃ r, (processChunksO false
        (([([assistantMsg "q1"], (⟨some "a", 10, 5⟩ : ORes)),
           ([assistantMsg "q2"], ⟨some "b", 10, 5⟩),
           ([assistantMsg "q3"], ⟨some "c", 10, 5⟩)]).map
          (fun p => (p.1, BackendResp.jsonData p.2))) [] 0 0 0).1 = .finalData r ∧
      (format_openai_response "chatcmpl-1" 0 "gpt-4" r).promptTokens = 30 ∧
      (format_openai_response "chatcmpl-1" 0 "gpt-4" r).completionTokens = 15 ∧
      (format_openai_response "chatcmpl-1" 0 "gpt-4" r).totalTokens = 45 :=
  ⟨by decide,
   C6_usage_accumulation false
     [([assistantMsg "q1"], ⟨some "a", 10, 5⟩),
      ([assistantMsg "q2"], ⟨some "b", 10, 5⟩),
      ([assistantMsg "q3"], ⟨some "c", 10, 5⟩)] (by decide) "chatcmpl-1" 0 "gpt-4"⟩

/-! ## Claim C9: streaming of chunked sub-requests -/

/-- Trace step of `processChunksO` on a successful dict response with a
nonempty remainder, under a streaming original request: the dispatched
sub-request carries `stream = False`. -/
theorem processChunksO_cons_data_trace (chunk : List Msg) (r : ORes)
    (L : List (List Msg × BackendResp)) (hL : L ≠ []) (ctx : List Msg) (cp ce i : Nat) :
    (processChunksO true ((chunk, .jsonData r) :: L) ctx cp ce i).2 =
    ⟨if ctx ≠ [] then chunk ++ ctx else chunk, some false⟩ ::
      (processChunksO true L
        (match r.content with | some c => [assistantMsg c] | none => ctx)
        (cp + r.promptEval) (ce + r.evalCount) (i + 1)).2 := by
  simp only [processChunksO]
  rw [if_neg hL]
  simp [hL]

/-- Trace of `processChunksO` for an all-successful streaming request: every
sub-request but the last carries `stream = False`; the last one's `stream`
key is popped and never restored (`none`). -/
theorem processChunksO_trace (pairs : List (List Msg × ORes)) (hne : pairs ≠ []) :
    ∀ (ctx : List Msg) (cp ce i : Nat),
      ((processChunksO true (pairs.map (fun p => (p.1, BackendResp.jsonData p.2)))
          ctx cp ce i).2).map (fun s => s.streamField)
        = List.replicate (pairs.length - 1) (some false) ++ [none] := by
  induction pairs with
  | nil => cases hne rfl
  | cons p rest ih =>
    intro ctx cp ce i
    cases rest with
    | nil => simp [processChunksO]
    | cons q rest' =>
      have hne' : q :: rest' ≠ [] := by simp
      have hmapne : (q :: rest').map (fun p => (p.1, BackendResp.jsonData p.2)) ≠ [] := by simp
      rw [List.map_cons, processChunksO_cons_data_trace p.1 p.2 _ hmapne, List.map_cons,
        ih hne']
      simp [List.replicate_succ]

/-- Every sub-request dispatched by the base handler's chunk loop carries
`stream = False`. -/
theorem processChunksBLoop_stream (backend : Nat → BRespB) (chunks : List (List Msg)) :
    ∀ (i : Nat), ∀ s ∈ (processChunksBLoop backend chunks i).2, s.streamField = some false := by
  induction chunks with
  | nil => intro i s hs; simp [processChunksBLoop] at hs
  | cons ch rest ih =>
    intro i s hs
    simp only [processChunksBLoop] at hs
    cases hb : backend i with
    | errD m c =>
        rw [hb] at hs
        simp at hs
        rw [hs]
    | resp =>
        rw [hb] at hs
        by_cases hr : rest = []
        · subst hr
          simp at hs
          rw [hs]
        · rw [if_neg hr] at hs
          rcases List.mem_cons.mp hs with h | h
          · rw [h]
          · exact ih (i + 1) s h

/-- C9 counterexample: a two-chunk request with `stream = True` processed by
`BaseRequestHandler.process_chunked_request` dispatches the final chunk with
`stream = False` (all chunks are forced non-streaming), refuting the claim
that only the final chunk's sub-request is dispatched with `stream = true`. -/
theorem C9_counterexample :
    ((process_chunked_request_base 10
        [⟨"user", some (.str "abcd"), []⟩, ⟨"user", some (.str "efgh"), []⟩] (some true)
        (fun _ => BRespB.resp)).2).map (fun s => baseDispatchedStream s.streamField)
      = [false, false] ∧
    2 ≤ (chunk_messages_base 10
        [⟨"user", some (.str "abcd"), []⟩, ⟨"user", some (.str "efgh"), []⟩]).length := by
  constructor <;> decide

/-- C9 (amended): in `OllamaRequestHandler._process_chunked_request`, a
streaming multi-chunk request dispatches every non-final chunk with
`stream = false` and the final chunk with an absent `stream` key, which
`_make_ollama_request` defaults back to streaming (`stream = true`); in
`BaseRequestHandler.process_chunked_request`, every chunk — the final one
included — is dispatched with `stream = false`. -/
theorem C9_stream_amended :
    (∀ (pairs : List (List Msg × ORes)), pairs ≠ [] → ∀ (ctx : List Msg) (cp ce i : Nat),
      ((processChunksO true (pairs.map (fun p => (p.1, BackendResp.jsonData p.2)))
          ctx cp ce i).2).map (fun s => ollamaDispatchedStream s.streamField)
        = List.replicate (pairs.length - 1) false ++ [true]) ∧
    (∀ (maxT : Nat) (orig : List Msg) (origStream : Option Bool) (backend : Nat → BRespB),
      2 ≤ (chunk_messages_base maxT orig).length →
      ∀ s ∈ (process_chunked_request_base maxT orig origStream backend).2,
        baseDispatchedStream s.streamField = false) := by
  constructor
  · intro pairs hne ctx cp ce i
    have h := processChunksO_trace pairs hne ctx cp ce i
    have hcomp : (fun s : SubReq => ollamaDispatchedStream s.streamField)
        = ollamaDispatchedStream ∘ (fun s : SubReq => s.streamField) := rfl
    rw [hcomp, ← List.map_map, h]
    simp [ollamaDispatchedStream, preferStreaming]
  · intro maxT orig origStream backend hlen s hs
    rw [process_chunked_request_base] at hs
    rw [if_neg (by omega)] at hs
    rw [baseDispatchedStream, processChunksBLoop_stream backend _ 0 s hs]
    rfl

/-- Witness for the amended C9: a two-chunk Ollama streaming request gives
dispatched stream flags `[false, true]`; a two-chunk base request dispatches
its sub-requests with `stream = false`. -/
theorem C9_stream_witness :
    (((processChunksO true
        (([([assistantMsg "x"], (⟨some "a", 1, 1⟩ : ORes)),
           ([assistantMsg "y"], ⟨some "b", 1, 1⟩)]).map
          (fun p => (p.1, BackendResp.jsonData p.2))) [] 0 0 0).2).map
        (fun s => ollamaDispatchedStream s.streamField)
      = List.replicate 1 false ++ [true]) ∧
    (2 ≤ (chunk_messages_base 10
        [⟨"user", some (.str "abcd"), []⟩, ⟨"user", some (.str "efgh"), []⟩]).length ∧
      (⟨[⟨"user", some (.str "abcd"), []⟩], some false⟩ : SubReq) ∈
        (process_chunked_request_base 10
          [⟨"user", some (.str "abcd"), []⟩, ⟨"user", some (.str "efgh"), []⟩] (some true)
          (fun _ => BRespB.resp)).2 ∧
      baseDispatchedStream (some false) = false) :=
  ⟨C9_stream_amended.1
      [([assistantMsg "x"], ⟨some "a", 1, 1⟩), ([assistantMsg "y"], ⟨some "b", 1, 1⟩)]
      (by decide) [] 0 0 0,
   by decide,
   by decide,
   C9_stream_amended.2 10
     [⟨"user", some (.str "abcd"), []⟩, ⟨"user", some (.str "efgh"), []⟩] (some true)
     (fun _ => BRespB.resp) (by decide) ⟨[⟨"user", some (.str "abcd"), []⟩], some false⟩
     (by decide)⟩

/-! ## Router.make_request (src/core/router.py 466-647)

The embedding covers the non-streaming OpenRouter primary branch (where the
source's non-retryable-error check at lines 536-547 lives) and the fallback
block (lines 561-647). The primary call's outcome is an input: OpenRouter's
`chat_completion` catches its own exceptions and returns an error dict, so
an exception reaching `make_request`'s handler comes from resolution or
dispatch plumbing, not from a backend-reported error. -/

/-- Value returned by a provider call: a successful payload or an error dict
`{"error": {"message": msg, "code": code}}` (`code` read with default 500). -/
inductive RResult where
  | ok (payload : String)
  | err (code : Nat) (msg : String)
deriving DecidableEq, Repr

/-- Outcome of a provider call site inside the `try` block: a returned value
or an exception that escapes into `make_request`'s handler. -/
inductive CallOutcome where
  | result (r : RResult)
  | exn (msg : String)
deriving DecidableEq, Repr

/-- The dict `make_request` hands back to the API layer (non-streaming):
the provider used, the provider call's result, the optional top-level
`"error"` key, and the `"fallback"` marker. -/
structure RouterReply where
  prov : String
  result : RResult
  errorField : Option (Nat × String)
  fallback : Bool
deriving DecidableEq, Repr

/-- Overall outcome of `make_request`: a reply dict or the final
`raise Exception("All providers failed ...")`. -/
inductive MkOut where
  | reply (r : RouterReply)
  | allFailed (primaryMsg : String)
deriving DecidableEq, Repr

/-- `Router.make_request`, non-streaming, primary provider resolved to
OpenRouter. Inputs: the primary call's outcome; the value of
`routing_config.get("fallback_enabled", True)`; the health of the two
fallback candidates (checked in the fixed order ollama, openrouter); and
the outcomes of the would-be fallback calls. The second component counts
fallback backend calls actually made. -/
def router_make_request (primary : CallOutcome) (fallbackEnabled : Bool)
    (ollamaHealthy openrouterHealthy : Bool)
    (ollamaFb openrouterFb : CallOutcome) : MkOut × Nat :=
  match primary with
  | .result r =>
      match r with
      | .err code msg =>
          if code = 401 ∨ code = 402 ∨ code = 403 ∨ code = 429 then
            (.reply ⟨"openrouter", .err code msg, some (code, msg), false⟩, 0)
          else (.reply ⟨"openrouter", .err code msg, none, false⟩, 0)
      | .ok p => (.reply ⟨"openrouter", .ok p, none, false⟩, 0)
  | .exn m =>
      if fallbackEnabled then
        if ollamaHealthy then
          match ollamaFb with
          | .result r => (.reply ⟨"ollama", r, none, true⟩, 1)
          | .exn _ => (.allFailed m, 1)
        else if openrouterHealthy then
          match openrouterFb with
          | .result r => (.reply ⟨"openrouter", r, none, true⟩, 1)
          | .exn _ => (.allFailed m, 1)
        else (.allFailed m, 0)
      else (.allFailed m, 0)

/-! ## Claim C2: fallback gating -/

/-- C2 counterexample: a transient backend-reported error — the
`backend-unreachable` dict `{"message": "Cannot connect to provider API",
"code": 503}` returned by the primary — triggers zero fallback attempts
(the claim demands exactly one): error dicts are returned to the caller
directly and only an escaped exception reaches the fallback block. -/
theorem C2_counterexample :
    router_make_request (.result (.err 503 "Cannot connect to provider API")) true true true
        (.result (.ok "fb")) (.result (.ok "fb"))
      = (.reply ⟨"openrouter", .err 503 "Cannot connect to provider API", none, false⟩, 0) ∧
    (router_make_request (.result (.err 503 "Cannot connect to provider API")) true true true
        (.result (.ok "fb")) (.result (.ok "fb"))).2 ≠ 1 := by
  constructor <;> decide

/-- C2 (amended): every backend-reported error dict from the primary — the
non-retryable client errors 401/402/403/429 and transient ones such as 503
alike — reaches the caller unchanged (same code and message) with zero
fallback calls; the 401/402/403/429 family is additionally flagged with a
top-level error field. Exactly one fallback attempt is made only when the
primary path raises an exception, fallback is enabled, and a healthy
alternative exists. -/
theorem C2_fallback_amended :
    (∀ (code : Nat) (msg : String) (fbE oH orH : Bool) (oF orF : CallOutcome),
      (router_make_request (.result (.err code msg)) fbE oH orH oF orF).2 = 0 ∧
      ∃ rep, (router_make_request (.result (.err code msg)) fbE oH orH oF orF).1 = .reply rep ∧
        rep.result = .err code msg ∧ rep.fallback = false ∧
        (rep.errorField = some (code, msg) ↔
          (code = 401 ∨ code = 402 ∨ code = 403 ∨ code = 429))) ∧
    (∀ (m : String) (orH : Bool) (r : RResult) (orF : CallOutcome),
      router_make_request (.exn m) true true orH (.result r) orF
        = (.reply ⟨"ollama", r, none, true⟩, 1)) := by
  constructor
  · intro code msg fbE oH orH oF orF
    by_cases hc : code = 401 ∨ code = 402 ∨ code = 403 ∨ code = 429
    · exact ⟨by simp [router_make_request, hc],
        ⟨⟨"openrouter", .err code msg, some (code, msg), false⟩,
          by simp [router_make_request, hc], rfl, rfl, by simp [hc]⟩⟩
    · exact ⟨by simp [router_make_request, hc],
        ⟨⟨"openrouter", .err code msg, none, false⟩,
          by simp [router_make_request, hc], rfl, rfl, by simp [hc]⟩⟩
  · intro m orH r orF
    simp [router_make_request]

/-- Witness for the amended C2 at concrete error codes 401 (flagged,
unchanged, no fallback) and a concrete primary exception (one fallback). -/
theorem C2_fallback_witness :
    ((router_make_request (.result (.err 401 "Invalid API key")) true true true
        (.result (.ok "fb")) (.result (.ok "fb"))).2 = 0 ∧
      ∃ rep, (router_make_request (.result (.err 401 "Invalid API key")) true true true
          (.result (.ok "fb")) (.result (.ok "fb"))).1 = .reply rep ∧
        rep.result = .err 401 "Invalid API key" ∧ rep.fallback = false ∧
        (rep.errorField = some (401, "Invalid API key") ↔
          ((401 : Nat) = 401 ∨ (401 : Nat) = 402 ∨ (401 : Nat) = 403 ∨ (401 : Nat) = 429))) ∧
    router_make_request (.exn "boom") true true true (.result (.ok "fb")) (.result (.ok "fb"))
      = (.reply ⟨"ollama", .ok "fb", none, true⟩, 1) :=
  ⟨C2_fallback_amended.1 401 "Invalid API key" true true true
      (.result (.ok "fb")) (.result (.ok "fb")),
   C2_fallback_amended.2 "boom" true (.ok "fb") (.result (.ok "fb"))⟩

/-! ## Backend adapter request loops
(src/core/handlers/base_request_handler.py `make_request` 108-162,
src/core/request.py `_make_ollama_request` 20-132) -/

/-- Python `pat in s` (substring containment), executably on characters. -/
def startsWithChars : List Char → List Char → Bool
  | _, [] => true
  | [], _ :: _ => false
  | c :: cs, p :: ps => c = p && startsWithChars cs ps

/-- Substring occurrence helper for `strOccurs`. -/
def occursAux : List Char → List Char → Bool
  | [], pat => pat.isEmpty
  | c :: cs, pat => startsWithChars (c :: cs) pat || occursAux cs pat

/-- Python `pat in s` on strings. -/
def strOccurs (s pat : String) : Bool := occursAux s.toList pat.toList

/-- Python `s.lower()`, character by character. -/
def lowerStr (s : String) : String := String.mk (s.toList.map Char.toLower)

/-- Outcome of one HTTP attempt inside `BaseRequestHandler.make_request`:
a response with some status, an `httpx.TimeoutException`, or another
exception. -/
inductive AttemptB where
  | http (status : Nat)
  | timeoutE
  | excE (msg : String)
deriving DecidableEq, Repr

/-- Value returned by `BaseRequestHandler.make_request`: the 200 response,
the provider-specific classification `handle_error_response(response, model)`
of a non-200 response, or one of the literal error dicts. -/
inductive BResult where
  | success
  | classified (status : Nat)
  | errDict (msg : String) (code : Nat)
deriving DecidableEq, Repr

/-- The retry loop of `BaseRequestHandler.make_request` (130-162).
`fuel = max_retries - retry_count` counts the remaining loop iterations;
besides the result, the number of attempts made and the list of backoff
sleeps (`min(2 ** retry_count, 8)` seconds, after incrementing) are
returned. -/
def mkLoopB (att : Nat → AttemptB) : Nat → Nat → BResult × Nat × List Nat
  | 0, _ => (.errDict "Max retries exceeded" 500, 0, [])
  | fuel + 1, rc =>
    match att rc with
    | .http s => if s = 200 then (.success, 1, []) else (.classified s, 1, [])
    | .timeoutE =>
        if fuel = 0 then (.errDict "Request timeout" 408, 1, [])
        else
          let rec' := mkLoopB att fuel (rc + 1)
          (rec'.1, rec'.2.1 + 1, min (2 ^ (rc + 1)) 8 :: rec'.2.2)
    | .excE m =>
        if fuel = 0 then (.errDict ("Request failed: " ++ m) 500, 1, [])
        else
          let rec' := mkLoopB att fuel (rc + 1)
          (rec'.1, rec'.2.1 + 1, min (2 ^ (rc + 1)) 8 :: rec'.2.2)

/-- `BaseRequestHandler.make_request`: a failed `test_connection` probe
short-circuits with the 503 dict before any attempt; otherwise the retry
loop runs with `retry_count = 0` and the ceiling `max_retries`
(constructor default 3). -/
def base_make_request (maxRetries : Nat) (connOk : Bool) (att : Nat → AttemptB) :
    BResult × Nat × List Nat :=
  if connOk then mkLoopB att maxRetries 0
  else (.errDict "Cannot connect to provider API" 503, 0, [])

/-- Outcome of one attempt inside `_make_ollama_request`: an HTTP response
with its status, the `error` text of its JSON body (when the body parses
and has one), and whether a 200 body parses as JSON; or a timeout /
connection error / other exception. -/
inductive AttemptO where
  | http (status : Nat) (errText : Option String) (parseOk : Bool)
  | timeoutE
  | connectE
  | excE (msg : String)
deriving DecidableEq, Repr

/-- Value produced by `_make_ollama_request`: one of the returned dicts or
responses, or one of the raised exceptions. -/
inductive OReqResult where
  | modelNotFound
  | apiErr (status : Nat)
  | streamResp
  | dataResp
  | connErr
  | raisedTimeout
  | raisedExc (msg : String)
  | raisedMax
deriving DecidableEq, Repr

/-- The retry loop of `_make_ollama_request` (32-132): model-not-found
bodies and statuses 400/404/422 return immediately; every other non-200
status, and a 200 body that fails to parse, is retried (1s sleep) until the
ceiling, after which the final `Exception` is raised; a timeout is retried
and re-raised at the ceiling; a connection error returns the 503 dict at
once. Attempts made are counted in the second component. -/
def mkLoopO (att : Nat → AttemptO) (isStreaming : Bool) : Nat → Nat → OReqResult × Nat
  | 0, _ => (.raisedMax, 0)
  | fuel + 1, rc =>
    match att rc with
    | .http s errText parseOk =>
        if s ≠ 200 then
          let mnf := match errText with
            | some e => strOccurs (lowerStr e) "model not found" || strOccurs (lowerStr e) "unknown model"
            | none => false
          if mnf then (.modelNotFound, 1)
          else if s = 400 ∨ s = 404 ∨ s = 422 then (.apiErr s, 1)
          else
            let rec' := mkLoopO att isStreaming fuel (rc + 1)
            (rec'.1, rec'.2 + 1)
        else if isStreaming then (.streamResp, 1)
        else if parseOk then (.dataResp, 1)
        else
          let rec' := mkLoopO att isStreaming fuel (rc + 1)
          (rec'.1, rec'.2 + 1)
    | .timeoutE =>
        if fuel = 0 then (.raisedTimeout, 1)
        else
          let rec' := mkLoopO att isStreaming fuel (rc + 1)
          (rec'.1, rec'.2 + 1)
    | .connectE => (.connErr, 1)
    | .excE m =>
        if fuel = 0 then (.raisedExc m, 1)
        else
          let rec' := mkLoopO att isStreaming fuel (rc + 1)
          (rec'.1, rec'.2 + 1)

/-- `OllamaRequestHandler._make_ollama_request`: the effective streaming
flag is `request_data.get("stream", self.prefer_streaming)`. -/
def ollama_make_request (maxRetries : Nat) (streamField : Option Bool) (att : Nat → AttemptO) :
    OReqResult × Nat :=
  mkLoopO att (ollamaDispatchedStream streamField) maxRetries 0

/-! ## Claim C8: no retry on 4xx, retry with backoff on transient failures -/

/-- C8 counterexample: `_make_ollama_request` retries a 429 (rate-limit)
client error on every attempt — three attempts, then a raised exception —
refuting the claim that any 4xx status is classified and returned
immediately on the first attempt. -/
theorem C8_counterexample :
    ollama_make_request 3 (some false)
        (fun _ => .http 429 (some "rate limit exceeded") true) = (.raisedMax, 3) ∧
    (ollama_make_request 3 (some false)
        (fun _ => .http 429 (some "rate limit exceeded") true)).2 ≠ 1 := by
  constructor <;> decide

/-- C8 (amended): the shared base handler returns any non-200 response —
4xx and 5xx alike — classified on the first attempt, with no retry and no
sleep; an all-timeouts run under the default ceiling 3 retries with backoff
sleeps of 2s then 4s (`min(2**k, 8)` — starting at 2s, not 1s) and returns
the 408 dict. The Ollama handler returns 400/404/422 immediately, but
retries every other non-200 status — including 429 and 5xx — with three
attempts before raising. -/
theorem C8_retry_amended :
    (∀ (maxRetries : Nat), 1 ≤ maxRetries → ∀ (att : Nat → AttemptB) (s : Nat), s ≠ 200 →
      att 0 = .http s → base_make_request maxRetries true att = (.classified s, 1, [])) ∧
    (∀ (att : Nat → AttemptB), (∀ k, att k = .timeoutE) →
      base_make_request 3 true att = (.errDict "Request timeout" 408, 3, [2, 4])) ∧
    (∀ (att : Nat → AttemptO) (s : Nat), s ≠ 200 → s ≠ 400 → s ≠ 404 → s ≠ 422 →
      (∀ k, att k = .http s none true) →
      ollama_make_request 3 (some false) att = (.raisedMax, 3)) := by
  refine ⟨?_, ?_, ?_⟩
  · intro maxRetries hm att s hs hatt
    obtain ⟨m, rfl⟩ : ∃ m, maxRetries = m + 1 := ⟨maxRetries - 1, by omega⟩
    simp [base_make_request, mkLoopB, hatt, hs]
  · intro att h
    simp [base_make_request, mkLoopB, h 0, h 1, h 2]
  · intro att s h200 h400 h404 h422 hatt
    simp [ollama_make_request, ollamaDispatchedStream, preferStreaming, mkLoopO,
      hatt 0, hatt 1, hatt 2, h200, h400, h404, h422]

/-- Witness for the amended C8: a 404 response is classified and returned on
the first attempt by the base handler; three timeouts produce the 408 dict
after sleeps `[2, 4]`; a constant-503 backend is retried three times by the
Ollama handler. -/
theorem C8_retry_witness :
    (1 ≤ 3 ∧ (404 : Nat) ≠ 200 ∧
      base_make_request 3 true (fun _ => .http 404) = (.classified 404, 1, [])) ∧
    base_make_request 3 true (fun _ => .timeoutE) = (.errDict "Request timeout" 408, 3, [2, 4]) ∧
    ollama_make_request 3 (some false) (fun _ => .http 503 none true) = (.raisedMax, 3) :=
  ⟨⟨by decide, by decide,
      C8_retry_amended.1 3 (by decide) (fun _ => .http 404) 404 (by decide) rfl⟩,
   C8_retry_amended.2.1 (fun _ => .timeoutE) (fun _ => rfl),
   C8_retry_amended.2.2 (fun _ => .http 503 none true) 503 (by decide) (by decide) (by decide)
     (by decide) (fun _ => rfl)⟩

/-! ## Streaming translators
(src/core/handlers/base_response_handler.py `stream_response` 132-276,
src/core/response.py `OllamaResponseHandler.stream_response` 79-277)

A backend stream is a list of `(arrival time, line)` pairs — the lines
`response.aiter_lines()` delivered — plus a flag saying whether iteration
ended by raising (transport error / read timeout) instead of completing.
`json.loads` is an abstract parse function; a parsed backend chunk is
reduced to the three fields the translators inspect. String primitives used
by the source (`strip`, `startswith`, slicing, `split`) are embedded at the
character level so that proofs can evaluate them. -/

/-- An outgoing SSE frame, reduced to its kind (and text for content
frames): the initial role chunk, a keepalive comment, a content-delta
chunk, a finish chunk (`finish_reason` set), an error envelope frame, and
the literal `data: [DONE]` frame. -/
inductive Event where
  | role
  | keepalive
  | content (s : String)
  | finish
  | errorFrame
  | doneMark
deriving DecidableEq, Repr

/-- A parsed backend stream chunk, reduced to the fields the translators
read: `message.content` (for the Ollama shape, via
`parse_streaming_chunk`), the `done` flag (via `is_streaming_done`), and
whether an `"error"` key is present. -/
structure BChunk where
  content : Option String
  done : Bool
  isError : Bool
deriving DecidableEq, Repr

/-- Python `line.strip()` (whitespace on both ends). -/
def stripStr (s : String) : String :=
  String.mk (((s.toList.dropWhile Char.isWhitespace).reverse.dropWhile Char.isWhitespace).reverse)

/-- Python `line.startswith(pre)`. -/
def strStarts (s pre : String) : Bool := startsWithChars s.toList pre.toList

/-- Python `line[n:]` (character slicing). -/
def dropStr (s : String) (n : Nat) : String := String.mk (s.toList.drop n)

/-- Helper for `splitNl`. -/
def splitNlChars : List Char → List Char → List (List Char)
  | [], acc => [acc.reverse]
  | c :: cs, acc => if c = '\n' then acc.reverse :: splitNlChars cs [] else splitNlChars cs (c :: acc)

/-- Python `line.split("\n")`. -/
def splitNl (s : String) : List String := (splitNlChars s.toList []).map String.mk

/-- Helper for `splitWords`: maximal runs of whitespace / non-whitespace
characters, as produced by `re.findall(r'\S+|\s+', content)`. -/
def charRuns : List Char → List (List Char)
  | [] => []
  | c :: cs =>
    match charRuns cs with
    | [] => [[c]]
    | [] :: rs => [c] :: rs
    | (d :: ds) :: rs =>
        if c.isWhitespace = d.isWhitespace then (c :: d :: ds) :: rs
        else [c] :: (d :: ds) :: rs

/-- The word/space fragments the base translator slices a delta into. -/
def splitWords (s : String) : List String := (charRuns s.toList).map (fun cs => String.mk cs)

/-- The synthetic truncation notice of the idle-timeout path. -/
def timeoutNotice : String := "\n\n[Connection lost - no data received]"

/-- Content events emitted by the base translator for one parsed delta: a
multi-character delta is subdivided into word/space fragments (one frame
each, order preserved); a single character goes out as-is. -/
def contentEventsB (c : String) : List Event :=
  if c.length > 1 then (splitWords c).map Event.content else [Event.content c]

/-- Handling of one successfully parsed chunk by the base translator's loop
body (error check, content fragments, done check); `cont` continues the
loop with the updated `last_yield_time`. -/
def handleChunkB (t lastY : Int) (ch : BChunk) (cont : Int → List Event) : List Event :=
  if ch.isError then [Event.errorFrame, Event.doneMark]
  else
    let c := ch.content.getD ""
    let evts := if c ≠ "" then contentEventsB c else []
    let lastY' := if c ≠ "" then t else lastY
    if ch.done then evts ++ [Event.finish, Event.doneMark]
    else evts ++ cont lastY'

/-- The line loop of `BaseResponseHandler.stream_response` (154-265),
instantiated with the Ollama response handlers
(src/core/handlers/ollama_handlers.py 111-122). State: the remaining timed
lines, `last_yield_time`, `last_data_time`. `ending` is what follows when
the line iterator is exhausted: `[DONE]` on normal exhaustion, an error
frame plus `[DONE]` when iteration raises, and `[]` when the stream simply
never produces anything again. The idle check runs only when a line
arrives; a `data: `-prefixed `[DONE]` payload breaks out of the loop. -/
def goB (parse : String → Option BChunk) (ending : List Event) :
    List (Int × String) → Int → Int → List Event
  | [], _, _ => ending
  | (t, line) :: rest, lastY, lastD =>
    let idle := t - lastD
    let lastD' := if stripStr line ≠ "" then t else lastD
    if idle > 60 then [Event.content timeoutNotice, Event.finish, Event.doneMark]
    else
      let kevts := if t - lastY > 5 then [Event.keepalive] else []
      let lastY' := if t - lastY > 5 then t else lastY
      if stripStr line = "" then kevts ++ goB parse ending rest lastY' lastD'
      else if strStarts line "data: " ∧ stripStr (dropStr line 6) = "[DONE]" then
        kevts ++ [Event.doneMark]
      else
        let payload := if strStarts line "data: " then dropStr line 6 else line
        match parse payload with
        | none => kevts ++ goB parse ending rest lastY' lastD'
        | some ch =>
            kevts ++ handleChunkB t lastY' ch (fun ly => goB parse ending rest ly lastD')

/-- Events emitted by `BaseResponseHandler.stream_response` while the
backend stream is still open: the initial role chunk followed by the loop
events over the lines delivered so far (`ending = []`: nothing else is ever
produced while no further line arrives and the stream does not end). -/
def streamLoopB (parse : String → Option BChunk) (t0 : Int) (lines : List (Int × String)) :
    List Event :=
  Event.role :: goB parse [] lines t0 t0

/-- `BaseResponseHandler.stream_response` over a completed backend stream:
role chunk, loop events, then `[DONE]` on normal exhaustion or — when
iteration raised — the outer handler's error frame followed by `[DONE]`. -/
def stream_response_base (parse : String → Option BChunk) (t0 : Int)
    (lines : List (Int × String)) (raised : Bool) : List Event :=
  Event.role ::
    goB parse (if raised then [Event.errorFrame, Event.doneMark] else [Event.doneMark]) lines t0 t0

/-- The subline/buffer reassembly of `OllamaResponseHandler.stream_response`
(163-243): each subline is parsed; undecodable fragments accumulate in the
buffer, which is re-parsed after each addition and flushed as raw content
once longer than 50 characters. Returns the emitted events, the updated
`last_yield_time` and the updated buffer. -/
def processSubs (parse : String → Option BChunk) (t : Int) :
    List String → Int → String → List Event × Int × String
  | [], lastY, buf => ([], lastY, buf)
  | sl :: rest, lastY, buf =>
    match parse sl with
    | some ch =>
        let c := ch.content.getD ""
        let evts := if c ≠ "" then [Event.content c] else []
        let lastY' := if c ≠ "" then t else lastY
        let r := processSubs parse t rest lastY' buf
        (evts ++ r.1, r.2)
    | none =>
        let buf1 := buf ++ sl
        match parse buf1 with
        | some ch =>
            let c := ch.content.getD ""
            let evts := if c ≠ "" then [Event.content c] else []
            let lastY' := if c ≠ "" then t else lastY
            let r := processSubs parse t rest lastY' ""
            (evts ++ r.1, r.2)
        | none =>
            if buf1.length > 50 then
              let r := processSubs parse t rest t ""
              (Event.content buf1 :: r.1, r.2)
            else processSubs parse t rest lastY buf1

/-- The line loop of `OllamaResponseHandler.stream_response` (110-245) plus
its epilogue: blank lines are skipped; a parsed chunk emits its content and
— when `done` — a finish chunk, after which the loop *continues*; an
undecodable line goes through subline/buffer reassembly. At exhaustion a
nonempty buffer is flushed and `[DONE]` is emitted; when iteration raised,
the handler emits an error frame and `[DONE]` instead. -/
def goO (parse : String → Option BChunk) (raised : Bool) :
    List (Int × String) → Int → String → List Event
  | [], _, buf =>
      if raised then [Event.errorFrame, Event.doneMark]
      else (if buf ≠ "" then [Event.content buf] else []) ++ [Event.doneMark]
  | (t, line) :: rest, lastY, buf =>
      if stripStr line = "" then goO parse raised rest lastY buf
      else
        let kevts := if t - lastY > 5 then [Event.keepalive] else []
        let lastY' := if t - lastY > 5 then t else lastY
        match parse line with
        | some ch =>
            let c := ch.content.getD ""
            let evts := if c ≠ "" then [Event.content c] else []
            let lastY'' := if c ≠ "" then t else lastY'
            let fevts := if ch.done then [Event.finish] else []
            kevts ++ evts ++ fevts ++ goO parse raised rest lastY'' buf
        | none =>
            let subs := (splitNl line).filter (fun l => stripStr l != "")
            let r := processSubs parse t subs lastY' buf
            kevts ++ r.1 ++ goO parse raised rest r.2.1 r.2.2

/-- `OllamaResponseHandler.stream_response` over a completed backend
stream. -/
def stream_response_ollama (parse : String → Option BChunk) (t0 : Int)
    (lines : List (Int × String)) (raised : Bool) : List Event :=
  Event.role :: goO parse raised lines t0 ""

/-- Input to `OpenRouterClient.stream_chat_completion`
(src/core/clients/openrouter_client.py 151-194): the request handler's
reply is an error dict, an object without `aiter_lines`, or a streamable
response. -/
inductive ORStreamInput where
  | errorDict
  | notStreamable
  | stream (lines : List (Int × String)) (raised : Bool)

/-- `OpenRouterClient.stream_chat_completion`: the two failure shapes yield
an error frame then `[DONE]`; a streamable response is delegated to the
base translator. -/
def stream_chat_completion_or (parse : String → Option BChunk) (t0 : Int) :
    ORStreamInput → List Event
  | .errorDict => [Event.errorFrame, Event.doneMark]
  | .notStreamable => [Event.errorFrame, Event.doneMark]
  | .stream lines raised => stream_response_base parse t0 lines raised

/-! ### Stream event properties -/

/-- Terminal events: a finish chunk or an error frame. -/
def isTerminal : Event → Bool
  | .finish => true
  | .errorFrame => true
  | _ => false

/-- Number of terminal events in an output. -/
def countTerminal (l : List Event) : Nat := l.countP isTerminal

/-- `tailOK l`: at most one terminal event occurs in `l`, and everything
after it is exactly the `[DONE]` frame. -/
def tailOK : List Event → Bool
  | [] => true
  | e :: rest => if isTerminal e then decide (rest = [Event.doneMark]) else tailOK rest

/-- No terminal event occurs. -/
def noTerm (l : List Event) : Bool := l.all (fun e => !isTerminal e)

/-- The output ends with the `[DONE]` frame. -/
def endsDone : List Event → Bool
  | [] => false
  | [e] => decide (e = Event.doneMark)
  | _ :: e :: rest => endsDone (e :: rest)

/-- Every error frame is immediately followed by the `[DONE]` frame. -/
def errImmDone : List Event → Bool
  | [] => true
  | .errorFrame :: rest =>
      match rest with
      | .doneMark :: rest' => errImmDone rest'
      | _ => false
  | _ :: rest => errImmDone rest

/-- No error frame occurs. -/
def noErrF (l : List Event) : Bool := l.all (fun e => decide (e ≠ Event.errorFrame))

theorem tailOK_append {a b : List Event} (h1 : noTerm a = true) (h2 : tailOK b = true) :
    tailOK (a ++ b) = true := by
  induction a with
  | nil => simpa using h2
  | cons e a ih =>
    simp only [noTerm, List.all_cons, Bool.and_eq_true, Bool.not_eq_true'] at h1
    simp only [List.cons_append, tailOK, h1.1]
    exact ih (by simp [noTerm, h1.2])

theorem endsDone_append {b : List Event} (hb : endsDone b = true) (a : List Event) :
    endsDone (a ++ b) = true := by
  induction a with
  | nil => simpa using hb
  | cons e a ih =>
    have hbne : b ≠ [] := by intro h; subst h; simp [endsDone] at hb
    have hne : a ++ b ≠ [] := by
      intro h
      exact hbne (List.append_eq_nil.mp h).2
    cases h : a ++ b with
    | nil => exact absurd h hne
    | cons x xs =>
        simp only [List.cons_append, h, endsDone]
        rw [← h]
        exact ih

theorem errImmDone_of_tailOK : ∀ {l : List Event}, tailOK l = true → errImmDone l = true := by
  intro l
  induction l with
  | nil => intro _; rfl
  | cons e rest ih =>
    intro h
    cases e with
    | errorFrame =>
        have hrest : rest = [Event.doneMark] := by
          simp only [tailOK, isTerminal, if_true] at h
          exact of_decide_eq_true h
        subst hrest
        decide
    | finish =>
        have hrest : rest = [Event.doneMark] := by
          simp only [tailOK, isTerminal, if_true] at h
          exact of_decide_eq_true h
        subst hrest
        decide
    | role =>
        simp only [tailOK, isTerminal] at h
        simp only [errImmDone]
        exact ih h
    | keepalive =>
        simp only [tailOK, isTerminal] at h
        simp only [errImmDone]
        exact ih h
    | content s =>
        simp only [tailOK, isTerminal] at h
        simp only [errImmDone]
        exact ih h
    | doneMark =>
        simp only [tailOK, isTerminal] at h
        simp only [errImmDone]
        exact ih h

theorem errImmDone_append {a b : List Event} (h1 : noErrF a = true) (h2 : errImmDone b = true) :
    errImmDone (a ++ b) = true := by
  induction a with
  | nil => simpa using h2
  | cons e a ih =>
    simp only [noErrF, List.all_cons, Bool.and_eq_true, decide_eq_true_eq] at h1
    have hrec := ih h1.2
    cases e with
    | errorFrame => exact absurd rfl h1.1
    | role => simp only [List.cons_append, errImmDone]; exact hrec
    | keepalive => simp only [List.cons_append, errImmDone]; exact hrec
    | content s => simp only [List.cons_append, errImmDone]; exact hrec
    | finish => simp only [List.cons_append, errImmDone]; exact hrec
    | doneMark => simp only [List.cons_append, errImmDone]; exact hrec

theorem noTerm_contentEventsB (c : String) : noTerm (contentEventsB c) = true := by
  rw [contentEventsB]
  split
  · simp [noTerm, List.all_map, isTerminal, Function.comp]
  · simp [noTerm, isTerminal]

theorem noErrF_contentEventsB (c : String) : noErrF (contentEventsB c) = true := by
  rw [contentEventsB]
  split
  · simp [noErrF, List.all_map, Function.comp]
  · simp [noErrF]

theorem noTerm_kevts (b : Prop) [Decidable b] :
    noTerm (if b then [Event.keepalive] else []) = true := by
  split <;> simp [noTerm, isTerminal]

theorem noTerm_evtsIf (c : String) : noTerm (if c ≠ "" then contentEventsB c else []) = true := by
  split
  · exact noTerm_contentEventsB c
  · rfl

theorem noErrF_evtsIf (c : String) : noErrF (if c ≠ "" then contentEventsB c else []) = true := by
  split
  · exact noErrF_contentEventsB c
  · rfl

theorem tailOK_handleChunkB (t lastY : Int) (ch : BChunk) (cont : Int → List Event)
    (hc : ∀ ly, tailOK (cont ly) = true) : tailOK (handleChunkB t lastY ch cont) = true := by
  by_cases he : ch.isError
  · simp [handleChunkB, he, tailOK, isTerminal]
  · by_cases hd : ch.done
    · simp only [handleChunkB, he, if_false, hd, if_true]
      exact tailOK_append (noTerm_evtsIf _) (by decide)
    · simp only [handleChunkB, he, if_false, hd]
      exact tailOK_append (noTerm_evtsIf _) (hc _)

theorem endsDone_handleChunkB (t lastY : Int) (ch : BChunk) (cont : Int → List Event)
    (hc : ∀ ly, endsDone (cont ly) = true) : endsDone (handleChunkB t lastY ch cont) = true := by
  by_cases he : ch.isError
  · simp [handleChunkB, he, endsDone]
  · by_cases hd : ch.done
    · simp only [handleChunkB, he, if_false, hd, if_true]
      exact endsDone_append (by decide) _
    · simp only [handleChunkB, he, if_false, hd]
      exact endsDone_append (hc _) _

/-- The base translator's loop emits at most one terminal event, and after
a terminal event emits only the `[DONE]` frame — for every backend stream,
every parse behavior and every end-of-stream behavior `ending` that itself
satisfies the property. -/
theorem tailOK_goB (parse : String → Option BChunk) (ending : List Event)
    (hend : tailOK ending = true) :
    ∀ (lines : List (Int × String)) (lastY lastD : Int),
      tailOK (goB parse ending lines lastY lastD) = true := by
  intro lines
  induction lines with
  | nil => intro _ _; simpa [goB] using hend
  | cons p rest ih =>
    intro lastY lastD
    obtain ⟨t, line⟩ := p
    simp only [goB]
    by_cases hidle : t - lastD > 60
    · simp only [if_pos hidle]
      decide
    · simp only [if_neg hidle]
      by_cases hblank : stripStr line = ""
      · simp only [if_pos hblank]
        exact tailOK_append (noTerm_kevts _) (ih _ _)
      · simp only [if_neg hblank]
        by_cases hdm : strStarts line "data: " = true ∧ stripStr (dropStr line 6) = "[DONE]"
        · simp only [if_pos hdm]
          exact tailOK_append (noTerm_kevts _) (by decide)
        · simp only [if_neg hdm]
          cases hp : parse (if strStarts line "data: " then dropStr line 6 else line) with
          | none => exact tailOK_append (noTerm_kevts _) (ih _ _)
          | some ch =>
              exact tailOK_append (noTerm_kevts _)
                (tailOK_handleChunkB _ _ _ _ (fun ly => ih ly _))

/-- The base translator's loop output always ends with the `[DONE]` frame,
for every `ending` that does. -/
theorem endsDone_goB (parse : String → Option BChunk) (ending : List Event)
    (hend : endsDone ending = true) :
    ∀ (lines : List (Int × String)) (lastY lastD : Int),
      endsDone (goB parse ending lines lastY lastD) = true := by
  intro lines
  induction lines with
  | nil => intro _ _; simpa [goB] using hend
  | cons p rest ih =>
    intro lastY lastD
    obtain ⟨t, line⟩ := p
    simp only [goB]
    by_cases hidle : t - lastD > 60
    · simp only [if_pos hidle]
      decide
    · simp only [if_neg hidle]
      by_cases hblank : stripStr line = ""
      · simp only [if_pos hblank]
        exact endsDone_append (ih _ _) _
      · simp only [if_neg hblank]
        by_cases hdm : strStarts line "data: " = true ∧ stripStr (dropStr line 6) = "[DONE]"
        · simp only [if_pos hdm]
          exact endsDone_append (by decide) _
        · simp only [if_neg hdm]
          cases hp : parse (if strStarts line "data: " then dropStr line 6 else line) with
          | none => exact endsDone_append (ih _ _) _
          | some ch =>
              exact endsDone_append (endsDone_handleChunkB _ _ _ _ (fun ly => ih ly _)) _

theorem noTerm_append_eq (a b : List Event) : noTerm (a ++ b) = (noTerm a && noTerm b) := by
  simp [noTerm, List.all_append]

theorem noErrF_append_eq (a b : List Event) : noErrF (a ++ b) = (noErrF a && noErrF b) := by
  simp [noErrF, List.all_append]

theorem processSubs_noTerm (parse : String → Option BChunk) (t : Int) :
    ∀ (subs : List String) (lastY : Int) (buf : String),
      noTerm (processSubs parse t subs lastY buf).1 = true := by
  intro subs
  induction subs with
  | nil => intro lastY buf; rfl
  | cons sl rest ih =>
    intro lastY buf
    cases hp : parse sl with
    | some ch =>
        simp only [processSubs, hp, noTerm_append_eq, Bool.and_eq_true]
        exact ⟨by split <;> rfl, ih _ _⟩
    | none =>
        cases hb : parse (buf ++ sl) with
        | some ch =>
            simp only [processSubs, hp, hb, noTerm_append_eq, Bool.and_eq_true]
            exact ⟨by split <;> rfl, ih _ _⟩
        | none =>
            simp only [processSubs, hp, hb]
            split
            · simp only [noTerm, List.all_cons, Bool.and_eq_true]
              exact ⟨rfl, ih _ _⟩
            · exact ih _ _

theorem processSubs_noErrF (parse : String → Option BChunk) (t : Int) :
    ∀ (subs : List String) (lastY : Int) (buf : String),
      noErrF (processSubs parse t subs lastY buf).1 = true := by
  intro subs
  induction subs with
  | nil => intro lastY buf; rfl
  | cons sl rest ih =>
    intro lastY buf
    cases hp : parse sl with
    | some ch =>
        simp only [processSubs, hp, noErrF_append_eq, Bool.and_eq_true]
        exact ⟨by split <;> rfl, ih _ _⟩
    | none =>
        cases hb : parse (buf ++ sl) with
        | some ch =>
            simp only [processSubs, hp, hb, noErrF_append_eq, Bool.and_eq_true]
            exact ⟨by split <;> rfl, ih _ _⟩
        | none =>
            simp only [processSubs, hp, hb]
            split
            · simp only [noErrF, List.all_cons, Bool.and_eq_true]
              exact ⟨rfl, ih _ _⟩
            · exact ih _ _

/-- The Ollama translator's output always ends with the `[DONE]` frame. -/
theorem endsDone_goO (parse : String → Option BChunk) (raised : Bool) :
    ∀ (lines : List (Int × String)) (lastY : Int) (buf : String),
      endsDone (goO parse raised lines lastY buf) = true := by
  intro lines
  induction lines with
  | nil =>
    intro lastY buf
    cases raised with
    | true => simp [goO, endsDone]
    | false =>
        by_cases hb : buf = "" <;> simp [goO, hb, endsDone]
  | cons p rest ih =>
    intro lastY buf
    obtain ⟨t, line⟩ := p
    simp only [goO]
    by_cases hblank : stripStr line = ""
    · simp only [if_pos hblank]
      exact ih _ _
    · simp only [if_neg hblank]
      cases hp : parse line with
      | some ch =>
          dsimp only
          exact endsDone_append (ih _ _) _
      | none =>
          dsimp only
          exact endsDone_append (ih _ _) _

/-- In the Ollama translator's output, every error frame is immediately
followed by the `[DONE]` frame. -/
theorem errImmDone_goO (parse : String → Option BChunk) (raised : Bool) :
    ∀ (lines : List (Int × String)) (lastY : Int) (buf : String),
      errImmDone (goO parse raised lines lastY buf) = true := by
  intro lines
  induction lines with
  | nil =>
    intro lastY buf
    cases raised with
    | true => simp [goO, errImmDone]
    | false =>
        by_cases hb : buf = "" <;> simp [goO, hb, errImmDone]
  | cons p rest ih =>
    intro lastY buf
    obtain ⟨t, line⟩ := p
    simp only [goO]
    by_cases hblank : stripStr line = ""
    · simp only [if_pos hblank]
      exact ih _ _
    · simp only [if_neg hblank]
      cases hp : parse line with
      | some ch =>
          dsimp only
          refine errImmDone_append ?_ (ih _ _)
          simp only [noErrF_append_eq, Bool.and_eq_true]
          exact ⟨⟨by split <;> rfl, by split <;> rfl⟩, by split <;> rfl⟩
      | none =>
          dsimp only
          refine errImmDone_append ?_ (ih _ _)
          simp only [noErrF_append_eq, Bool.and_eq_true]
          exact ⟨by split <;> rfl, processSubs_noErrF parse t _ _ _⟩

/-- The Ollama translator on a well-formed completed stream — every line
non-blank and parseable, the backend `done` flag raised exactly on the last
line — emits exactly one terminal event (the finish chunk), followed only
by the `[DONE]` frame. -/
theorem goO_single_done (parse : String → Option BChunk) :
    ∀ (init : List (Int × String)) (tl : Int) (ll : String) (lastY : Int),
      (∀ p ∈ init, stripStr p.2 ≠ "" ∧ ∃ ch, parse p.2 = some ch ∧ ch.done = false) →
      stripStr ll ≠ "" → ∀ chL, parse ll = some chL → chL.done = true →
      tailOK (goO parse false (init ++ [(tl, ll)]) lastY "") = true ∧
      countTerminal (goO parse false (init ++ [(tl, ll)]) lastY "") = 1 := by
  intro init
  induction init with
  | nil =>
    intro tl ll lastY _ hll chL hparse hdone
    simp only [List.nil_append, goO, if_neg hll, hparse, hdone, eq_self_iff_true, if_true,
      List.append_assoc]
    constructor
    · refine tailOK_append (noTerm_kevts _) ?_
      refine tailOK_append (by split <;> rfl) ?_
      simp [goO, tailOK, isTerminal]
    · have h1 : (if tl - lastY > 5 then [Event.keepalive] else []).countP isTerminal = 0 := by
        split <;> rfl
      have h2 : (if chL.content.getD "" ≠ "" then [Event.content (chL.content.getD "")]
          else []).countP isTerminal = 0 := by
        split <;> rfl
      simp [countTerminal, List.countP_append, h1, h2, goO, List.countP_cons, isTerminal]
  | cons p init ih =>
    intro tl ll lastY hinit hll chL hparse hdone
    obtain ⟨t, line⟩ := p
    obtain ⟨hline, ch, hpch, hchdone⟩ := hinit (t, line) (by simp)
    have hrec := ih tl ll (if ch.content.getD "" ≠ "" then t else if t - lastY > 5 then t else lastY)
      (fun q hq => hinit q (by simp [hq])) hll chL hparse hdone
    simp only [List.cons_append, goO, if_neg hline, hpch, hchdone, Bool.false_eq_true, if_false,
      List.append_nil, List.append_assoc]
    constructor
    · refine tailOK_append (noTerm_kevts _) ?_
      refine tailOK_append (by split <;> rfl) ?_
      exact hrec.1
    · have h1 : (if t - lastY > 5 then [Event.keepalive] else []).countP isTerminal = 0 := by
        split <;> rfl
      have h3 := hrec.2
      simp only [countTerminal] at h3
      by_cases hcc : ch.content.getD "" = ""
      · simp [countTerminal, List.countP_append, h1, hcc] at h3 ⊢
        exact h3
      · simp [countTerminal, List.countP_append, h1, hcc, List.countP_cons, isTerminal] at h3 ⊢
        exact h3

/-! ## Claim C1: streaming terminal invariant -/

/-- Parse oracle for the C1 counterexample: `"D"` parses to a done chunk,
`"C"` to a content chunk. -/
def parseCex : String → Option BChunk := fun s =>
  if s = "D" then some ⟨none, true, false⟩
  else if s = "C" then some ⟨some "hi", false, false⟩
  else none

/-- C1 counterexample: on a backend stream whose `done` chunk is followed by
a further content chunk, `OllamaResponseHandler.stream_response` emits the
finish chunk and then keeps producing events — the loop does not stop on
the terminal event — refuting the claim that no events follow the terminal
event. -/
theorem C1_counterexample :
    stream_response_ollama parseCex 0 [(0, "D"), (0, "C")] false
      = [Event.role, Event.finish, Event.content "hi", Event.doneMark] ∧
    tailOK (stream_response_ollama parseCex 0 [(0, "D"), (0, "C")] false) = false := by
  constructor <;> decide

/-- C1 (amended): the base translator (`BaseResponseHandler.stream_response`)
emits at most one terminal event on every stream, with nothing but the
`[DONE]` marker after it; the Ollama translator
(`OllamaResponseHandler.stream_response`) guarantees this — with exactly
one terminal event — only for streams whose lines all parse, are non-blank,
and whose backend `done` signal arrives exactly once, as the last line. -/
theorem C1_terminal_amended :
    (∀ (parse : String → Option BChunk) (t0 : Int) (lines : List (Int × String)) (raised : Bool),
      tailOK (stream_response_base parse t0 lines raised) = true) ∧
    (∀ (parse : String → Option BChunk) (t0 : Int) (init : List (Int × String)) (tl : Int)
        (ll : String),
      (∀ p ∈ init, stripStr p.2 ≠ "" ∧ ∃ ch, parse p.2 = some ch ∧ ch.done = false) →
      stripStr ll ≠ "" → ∀ chL, parse ll = some chL → chL.done = true →
      tailOK (stream_response_ollama parse t0 (init ++ [(tl, ll)]) false) = true ∧
      countTerminal (stream_response_ollama parse t0 (init ++ [(tl, ll)]) false) = 1) := by
  constructor
  · intro parse t0 lines raised
    rw [stream_response_base]
    have h : tailOK (if raised then [Event.errorFrame, Event.doneMark] else [Event.doneMark])
        = true := by
      split <;> decide
    simp only [tailOK, isTerminal, Bool.false_eq_true, if_false]
    exact tailOK_goB parse _ h lines t0 t0
  · intro parse t0 init tl ll hinit hll chL hparse hdone
    have h := goO_single_done parse init tl ll t0 hinit hll chL hparse hdone
    constructor
    · rw [stream_response_ollama]
      simp only [tailOK, isTerminal, Bool.false_eq_true, if_false]
      exact h.1
    · rw [stream_response_ollama]
      have h2 := h.2
      simp only [countTerminal] at h2 ⊢
      simp [List.countP_cons, isTerminal, h2]

/-- Parse oracle for the C1 witness. -/
def parseWf : String → Option BChunk := fun s =>
  if s = "C" then some ⟨some "x", false, false⟩
  else if s = "D" then some ⟨none, true, false⟩
  else none

/-- Witness for the amended C1 at a concrete base-handler stream and a
concrete well-formed Ollama stream. -/
theorem C1_terminal_witness :
    tailOK (stream_response_base parseWf 0 [(0, "C")] false) = true ∧
    (tailOK (stream_response_ollama parseWf 0 ([(0, "C")] ++ [(5, "D")]) false) = true ∧
      countTerminal (stream_response_ollama parseWf 0 ([(0, "C")] ++ [(5, "D")]) false) = 1) :=
  ⟨C1_terminal_amended.1 parseWf 0 [(0, "C")] false,
   C1_terminal_amended.2 parseWf 0 [(0, "C")] 5 "D"
     (by
       intro p hp
       have hp' : p = ((0 : Int), "C") := by simpa using hp
       subst hp'
       exact ⟨by decide, ⟨⟨some "x", false, false⟩, by decide, rfl⟩⟩)
     (by decide) ⟨none, true, false⟩ (by decide) rfl⟩

/-! ## Claim C3: idle timeout -/

/-- Parse oracle for the C3 evaluation. -/
def parseStall : String → Option BChunk := fun s =>
  if s = "J" then some ⟨some "hi", false, false⟩ else none

/-- C3: the idle-timeout check of `BaseResponseHandler.stream_response` runs
only when a new line arrives. A backend stream that delivers one data line
at `t = 0` and then stalls forever never triggers the 60s idle timeout: the
translator emits no timeout-finish — no terminal event at all — however
long the stall lasts. The timeout events appear only when a *further* line
arrives past the idle ceiling, here at `t = 100`, which is 100s after the
last data and outside the claimed `60 ± ε` window. -/
theorem C3_idle_timeout_eval :
    streamLoopB parseStall 0 [(0, "J")] = [Event.role, Event.content "hi"] ∧
    countTerminal (streamLoopB parseStall 0 [(0, "J")]) = 0 ∧
    streamLoopB parseStall 0 [(0, "J"), (100, "K")]
      = [Event.role, Event.content "hi", Event.content timeoutNotice, Event.finish,
         Event.doneMark] := by
  refine ⟨?_, ?_, ?_⟩ <;> decide

/-! ## Claim C4: failure paths end with an error envelope and `[DONE]` -/

/-- C4: on every backend stream — any parse behavior, any timing, whether
iteration completes or raises — both streaming translators and the
OpenRouter streaming wrapper produce an output that ends with the
`data: [DONE]` frame, and every error envelope frame they emit is
immediately followed by the `[DONE]` frame. -/
theorem C4_error_done (parse : String → Option BChunk) (t0 : Int)
    (lines : List (Int × String)) (raised : Bool) (inp : ORStreamInput) :
    (endsDone (stream_response_base parse t0 lines raised) = true ∧
      errImmDone (stream_response_base parse t0 lines raised) = true) ∧
    (endsDone (stream_response_ollama parse t0 lines raised) = true ∧
      errImmDone (stream_response_ollama parse t0 lines raised) = true) ∧
    (endsDone (stream_chat_completion_or parse t0 inp) = true ∧
      errImmDone (stream_chat_completion_or parse t0 inp) = true) := by
  have hbase : ∀ (ls : List (Int × String)) (r : Bool),
      endsDone (stream_response_base parse t0 ls r) = true ∧
      errImmDone (stream_response_base parse t0 ls r) = true := by
    intro ls r
    constructor
    · rw [stream_response_base]
      exact endsDone_append (endsDone_goB parse _ (by split <;> decide) ls t0 t0) [Event.role]
    · apply errImmDone_of_tailOK
      rw [stream_response_base]
      simp only [tailOK, isTerminal, Bool.false_eq_true, if_false]
      exact tailOK_goB parse _ (by split <;> decide) ls t0 t0
  refine ⟨hbase lines raised, ⟨?_, ?_⟩, ?_⟩
  · rw [stream_response_ollama]
    exact endsDone_append (endsDone_goO parse raised lines t0 "") [Event.role]
  · rw [stream_response_ollama]
    simp only [errImmDone]
    exact errImmDone_goO parse raised lines t0 ""
  · cases inp with
    | errorDict => exact ⟨rfl, rfl⟩
    | notStreamable => exact ⟨rfl, rfl⟩
    | stream ls r => exact hbase ls r

end OllamaLink
